import Mathlib

set_option maxRecDepth 8192

/-!
Verification of the bookmark-tree traversal and folder-selector resolution
engine of `src/bookmarks_chromium.py` (Chromium-Bookmarks utility).

The Python script works on the raw JSON dictionaries of a Chromium
"Bookmarks" file.  The shallow embedding below translates the functions
`_iter_folders`, `_iter_children`, `_match_selector`, `_folder_path`,
`_print_folder_line` and the folder-listing loop of `cmd_list_dirs` into
executable Lean definitions.

Model restrictions (documented where they matter):
* a node is modelled by the dictionary keys the script actually reads:
  `type` (read with `.get`, hence `Option`), `id`, `name`, `url`,
  `children` (read with `.get("children", [])`, so a missing key behaves
  exactly like the empty list and is modelled as such); all remaining
  dictionary entries are collected in `extra`, which no embedded function
  reads;
* `id`, `name` and `url` are modelled as present string values: the only
  claims needing a missing key concern `type`;
* Python's `str.lower` is modelled by `strLower` below (character-wise
  ASCII case folding); the names appearing in the claims are ASCII;
* Python's structural dictionary equality `==` (used by `f in matches`) is
  modelled by decidable equality of the node type.
-/

/-- A bookmark-tree node as the script reads it from the parsed JSON
dictionary. -/
structure RNode where
  type : Option String
  id : String
  name : String
  url : String
  children : List RNode
  extra : List (String × String)

/-- Size of the children list is smaller than the size of the node. -/
theorem RNode.sizeOf_children_lt (n : RNode) : sizeOf n.children < sizeOf n := by
  cases n with
  | mk t i nm u cs e => simp; omega

/-- Size of a child is smaller than the size of its parent node. -/
theorem RNode.sizeOf_child_lt {c n : RNode} (h : c ∈ n.children) :
    sizeOf c < sizeOf n := by
  have h2 := List.sizeOf_lt_of_mem h
  cases n with
  | mk t i nm u cs e => simp at h2 ⊢; omega

/-- Strong induction over the nested node type, descending into children. -/
theorem RNode.strongInd (motive : RNode → Prop)
    (ih : ∀ n : RNode, (∀ c ∈ n.children, motive c) → motive n) :
    ∀ n, motive n := by
  have key : ∀ (k : Nat) (n : RNode), sizeOf n ≤ k → motive n := by
    intro k
    induction k with
    | zero =>
      intro n h
      exfalso
      cases n with
      | mk t i nm u cs e => simp at h
    | succ k ihk =>
      intro n hn
      apply ih
      intro c hc
      exact ihk c (by have := RNode.sizeOf_child_lt hc; omega)
  intro n
  exact key (sizeOf n) n le_rfl

mutual

/-- Structural equality of nodes, modelling Python's dictionary `==`. -/
def RNode.beq (a b : RNode) : Bool :=
  match a, b with
  | ⟨t1, i1, n1, u1, cs1, e1⟩, ⟨t2, i2, n2, u2, cs2, e2⟩ =>
    t1 == t2 && i1 == i2 && n1 == n2 && u1 == u2 &&
      RNode.beqList cs1 cs2 && e1 == e2

/-- Pointwise structural equality of node lists. -/
def RNode.beqList (as bs : List RNode) : Bool :=
  match as, bs with
  | [], [] => true
  | a :: as1, b :: bs1 => RNode.beq a b && RNode.beqList as1 bs1
  | _, _ => false

end

/-- `RNode.beq` decides propositional equality. -/
theorem RNode.beq_iff : ∀ a b : RNode, RNode.beq a b = true ↔ a = b := by
  have lih : ∀ cs1 : List RNode,
      (∀ c ∈ cs1, ∀ b, RNode.beq c b = true ↔ c = b) →
      ∀ cs2, RNode.beqList cs1 cs2 = true ↔ cs1 = cs2 := by
    intro cs1
    induction cs1 with
    | nil =>
      intro _ cs2
      cases cs2 <;> simp [RNode.beqList]
    | cons c rest ihr =>
      intro hmem cs2
      cases cs2 with
      | nil => simp [RNode.beqList]
      | cons d ds =>
        rw [RNode.beqList]
        rw [Bool.and_eq_true]
        rw [hmem c (by simp) d]
        rw [ihr (fun x hx => hmem x (by simp [hx])) ds]
        simp
  intro a
  induction a using RNode.strongInd with
  | ih a iha =>
    intro b
    cases a with
    | mk t1 i1 n1 u1 cs1 e1 =>
      cases b with
      | mk t2 i2 n2 u2 cs2 e2 =>
        rw [RNode.beq]
        simp only [Bool.and_eq_true, beq_iff_eq]
        rw [lih cs1 (fun c hc => iha c hc) cs2]
        constructor
        · rintro ⟨⟨⟨⟨⟨h1, h2⟩, h3⟩, h4⟩, h5⟩, h6⟩
          subst h1; subst h2; subst h3; subst h4; subst h5; subst h6; rfl
        · intro h
          cases h
          exact ⟨⟨⟨⟨⟨rfl, rfl⟩, rfl⟩, rfl⟩, rfl⟩, rfl⟩

instance : DecidableEq RNode := fun a b =>
  decidable_of_iff (RNode.beq a b = true) (RNode.beq_iff a b)

/-- A traversal record: the tuple `(folder_node, parent_id, path_parts)`
yielded by `_iter_folders`. -/
structure TRec where
  folder : RNode
  parentId : Option String
  path : List String
deriving DecidableEq

mutual

/-- Embedding of `_iter_folders(node, parent_id, path_parts)`: if the node's
`type` is `"folder"`, yield the record `(node, parent_id, path_parts +
[node["name"]])` and then recurse into each child with parent id
`node["id"]` and the extended path. -/
def iterFolders (node : RNode) (parentId : Option String)
    (pathParts : List String) : List TRec :=
  match node with
  | ⟨t, i, nm, _, cs, _⟩ =>
    if t = some "folder" then
      ⟨node, parentId, pathParts ++ [nm]⟩ ::
        iterFoldersChildren cs i (pathParts ++ [nm])
    else []

/-- The `for child in node.get("children", []): yield from _iter_folders(...)`
loop: records of each child in order, concatenated. -/
def iterFoldersChildren (cs : List RNode) (pid : String)
    (pathParts : List String) : List TRec :=
  match cs with
  | [] => []
  | c :: rest =>
      iterFolders c (some pid) pathParts ++ iterFoldersChildren rest pid pathParts

end

/-- Embedding of `_iter_children(folder)`: returns `folder.children`
unchanged (`node.get("children", [])`). -/
def iterChildren (node : RNode) : List RNode :=
  node.children

/-- Whether `hay` starts with `needle`, on character lists. -/
def listStartsWith : List Char → List Char → Bool
  | [], _ => true
  | _ :: _, [] => false
  | a :: as, b :: bs => a == b && listStartsWith as bs

/-- Whether `needle` occurs contiguously inside `hay`, on character lists. -/
def listInfix (needle hay : List Char) : Bool :=
  listStartsWith needle hay ||
    match hay with
    | [] => false
    | _ :: rest => listInfix needle rest

/-- Python's `str.lower`, character-wise ASCII case folding. -/
def strLower (s : String) : String := String.mk (s.toList.map Char.toLower)

/-- Python's substring test `needle in hay` on strings. -/
def strContains (hay needle : String) : Bool :=
  listInfix needle.toList hay.toList

/-- Embedding of `_folder_path(path_parts)`: a leading `/` followed by the
parts joined with `/`. -/
def folderPathStr (pathParts : List String) : String :=
  "/" ++ String.intercalate "/" pathParts

/-- The three failure exits of `_match_selector` (each is a `log_error`
followed by `sys.exit(1)` in the source), carrying the message passed to
`log_error`. -/
inductive SelErr where
  | internalError (msg : String)
  | noMatch (msg : String)
  | ambiguous (msg : String)
deriving DecidableEq

/-- Embedding of `_match_selector(folders, selector)`: first the exact-id
pass over `f["id"] == selector`; if it is empty, the case-insensitive
substring pass of `selector.lower()` against `f["name"].lower()`; the
ambiguity message re-derives the reported folders from the full record list
by structural membership (`f in matches`), rendering each as
`"/".join(path) (id:<id>)`. -/
def matchSelector (folders : List TRec) (selector : String) : Except SelErr RNode :=
  match (folders.map (fun t => t.folder)).filter (fun f => f.id = selector) with
  | [f] => Except.ok f
  | _ :: _ :: _ =>
      Except.error (SelErr.internalError
        ("Internal error: multiple folders with id " ++ selector))
  | [] =>
      let selLow := strLower selector
      let ms := (folders.map (fun t => t.folder)).filter
        (fun f => strContains (strLower f.name) selLow)
      match ms with
      | [] => Except.error (SelErr.noMatch
          ("No bookmark folder matches selector \x27" ++ selector ++ "\x27"))
      | [f] => Except.ok f
      | _ :: _ :: _ =>
          Except.error (SelErr.ambiguous
            ("ERROR: ambiguous bookmark folder selector, expected one folder to match while all these folders match: "
              ++ String.intercalate ", "
                ((folders.filter (fun t => decide (t.folder ∈ ms))).map
                  (fun t => String.intercalate "/" t.path ++ " (id:" ++ t.folder.id ++ ")"))))

deriving instance DecidableEq for Except

/-- A value of the top-level `roots` mapping: a JSON object (modelled as a
node) or any non-object JSON value, which `cmd_list_dirs` skips via its
`isinstance(root, dict)` check. -/
inductive RVal where
  | dict (n : RNode)
  | nondict
deriving DecidableEq

/-- Embedding of the root-collection loop of `cmd_list_dirs` (also repeated
verbatim in `cmd_ls`): for each `root_name, root` in `roots.items()`, in
insertion order, extend the folder list with
`_iter_folders(root, None, [root_name])` when the value is a dict. -/
def collectRootFolders (roots : List (String × RVal)) : List TRec :=
  roots.foldl
    (fun acc kv =>
      match kv.2 with
      | RVal.dict n => acc ++ iterFolders n none [kv.1]
      | RVal.nondict => acc)
    []

/-- The parsed bookmarks JSON document, restricted to the top-level `roots`
entry that `cmd_list_dirs` reads; `none` models a document without a
`roots` key. -/
structure BData where
  roots : Option (List (String × RVal))

/-- Embedding of `data["roots"]` followed by the root-collection loop: a
missing `roots` key raises an uncaught `KeyError`. -/
def listDirsRoots (d : BData) : Except String (List TRec) :=
  match d.roots with
  | none => Except.error "KeyError: \x27roots\x27"
  | some rs => Except.ok (collectRootFolders rs)

/-- String escaping of `json.dumps` for the backslash and double-quote
characters; other characters of the modelled data pass through unchanged
(`ensure_ascii=False`; the modelled inputs carry no control characters). -/
def jsonEscape (s : String) : String :=
  String.mk (s.toList.flatMap (fun c =>
    if c = '\\' then ['\\', '\\']
    else if c = '"' then ['\\', '"']
    else [c]))

/-- A JSON string literal. -/
def jsonStr (s : String) : String := "\"" ++ jsonEscape s ++ "\""

/-- A JSON string literal or `null` (Python `None`). -/
def jsonOptStr (s : Option String) : String :=
  match s with
  | none => "null"
  | some v => jsonStr v

/-- The csv branch of `_print_folder_line`:
`f-string id,parent_id or "",quoted name`. -/
def csvFolderLine (folder : RNode) (parentId : Option String) : String :=
  folder.id ++ "," ++ parentId.getD "" ++ ",\"" ++ folder.name ++ "\""

/-- The jsonl branch of `_print_folder_line`: `json.dumps` of the dict
built with keys `id`, `parent_id`, `name`, `path` in that insertion
order. -/
def jsonlFolderLine (folder : RNode) (parentId : Option String)
    (pathStr : String) : String :=
  "\x7b\"id\": " ++ jsonStr folder.id ++ ", \"parent_id\": " ++ jsonOptStr parentId
    ++ ", \"name\": " ++ jsonStr folder.name ++ ", \"path\": " ++ jsonStr pathStr
    ++ "\x7d"

/-- The three `--format` choices of the `list-dirs` sub-command; argparse
restricts the flag to these, so the `ValueError` branch of
`_print_folder_line` is unreachable. -/
inductive Fmt
  | path
  | csv
  | jsonl
deriving DecidableEq

/-- Embedding of `_print_folder_line(folder, parent_id, path_parts, args)`
as the single line it prints. -/
def printFolderLine (folder : RNode) (parentId : Option String)
    (pathParts : List String) (fmt : Fmt) (showIds : Bool) : String :=
  match fmt with
  | Fmt.path =>
      folderPathStr pathParts ++ (if showIds then " (id:" ++ folder.id ++ ")" else "")
  | Fmt.csv => csvFolderLine folder parentId
  | Fmt.jsonl => jsonlFolderLine folder parentId (folderPathStr pathParts)

/-- Models `json.dumps(child, ensure_ascii=False)` for the `type: url`
child nodes printed by the with-bookmarks loop: the modelled fields are
emitted in a fixed key order (the real order is the source file's dict
insertion order, which the model does not track); such nodes carry no
children, and `extra` entries are dumped as string values. -/
def dumpsUrlNode (n : RNode) : String :=
  "\x7b\"type\": " ++ jsonOptStr n.type ++ ", \"id\": " ++ jsonStr n.id
    ++ ", \"name\": " ++ jsonStr n.name ++ ", \"url\": " ++ jsonStr n.url
    ++ String.join (n.extra.map (fun kv => ", " ++ jsonStr kv.1 ++ ": " ++ jsonStr kv.2))
    ++ "\x7d"

/-- One line printed for a direct `type: url` child inside the
with-bookmarks loop of `cmd_list_dirs`. -/
def urlChildLine (fmt : Fmt) (folder : RNode) (pathParts : List String)
    (child : RNode) : String :=
  match fmt with
  | Fmt.path => folderPathStr (pathParts ++ [child.name])
  | Fmt.csv => child.id ++ "," ++ folder.id ++ ",\"" ++ child.name ++ "\""
  | Fmt.jsonl => dumpsUrlNode child

/-- The `for child in _iter_children(folder)` loop of `cmd_list_dirs`:
`child["type"]` raises `KeyError` when the key is absent; children with
`type == "url"` produce one line each, in source order; other children
produce none. -/
def bookmarkLinesAux (fmt : Fmt) (folder : RNode) (pathParts : List String) :
    List RNode → Except String (List String)
  | [] => Except.ok []
  | c :: rest =>
      match c.type with
      | none => Except.error "KeyError: \x27type\x27"
      | some t =>
          match bookmarkLinesAux fmt folder pathParts rest with
          | Except.error e => Except.error e
          | Except.ok out =>
              Except.ok ((if t = "url" then [urlChildLine fmt folder pathParts c] else []) ++ out)

/-- The lines of the with-bookmarks loop for one folder. -/
def bookmarkLines (fmt : Fmt) (folder : RNode) (pathParts : List String) :
    Except String (List String) :=
  bookmarkLinesAux fmt folder pathParts (iterChildren folder)

/-- The printing loop of `cmd_list_dirs` over the collected traversal
records, as the list of lines written to standard output: each folder's own
line, followed (when `--with-bookmarks` is given) by the lines of its
direct `type: url` children. -/
def listDirsOut (fmt : Fmt) (showIds withBookmarks : Bool) :
    List TRec → Except String (List String)
  | [] => Except.ok []
  | r :: rest =>
      if withBookmarks then
        match bookmarkLines fmt r.folder r.path with
        | Except.error e => Except.error e
        | Except.ok bl =>
            match listDirsOut fmt showIds withBookmarks rest with
            | Except.error e => Except.error e
            | Except.ok out =>
                Except.ok (printFolderLine r.folder r.parentId r.path fmt showIds :: (bl ++ out))
      else
        match listDirsOut fmt showIds withBookmarks rest with
        | Except.error e => Except.error e
        | Except.ok out =>
            Except.ok (printFolderLine r.folder r.parentId r.path fmt showIds :: out)

mutual

/-- The node with all unmodelled dictionary entries removed, recursively. -/
def eraseExtras (n : RNode) : RNode :=
  match n with
  | ⟨t, i, nm, u, cs, _⟩ => ⟨t, i, nm, u, eraseExtrasList cs, []⟩

/-- `eraseExtras` mapped over a list of nodes. -/
def eraseExtrasList (cs : List RNode) : List RNode :=
  match cs with
  | [] => []
  | c :: rest => eraseExtras c :: eraseExtrasList rest

end

/-- `eraseExtras` applied to the folder stored in a traversal record. -/
def eraseExtrasRec (r : TRec) : TRec :=
  ⟨eraseExtras r.folder, r.parentId, r.path⟩

/-- Simple quoted-field parsing of a csv line whose quoted field is the
final one: the recovered text is the part of the line strictly between its
first and its last double quote. -/
def quotedFieldOfLine (line : String) : Option String :=
  match line.toList.dropWhile (fun c => !(c == '"')) with
  | [] => none
  | _ :: body =>
      match body.reverse.dropWhile (fun c => !(c == '"')) with
      | [] => none
      | _ :: rest => some (String.mk rest.reverse)

/-- A traversal record with a path segment list prepended, keeping folder
and parent id. -/
def prependPath (pre : List String) (r : TRec) : TRec :=
  ⟨r.folder, r.parentId, pre ++ r.path⟩

/-- Unfolding: a node whose `type` is not `"folder"` yields no records. -/
theorem iterFolders_not_folder {n : RNode} (h : ¬ n.type = some "folder")
    (pid : Option String) (pre : List String) : iterFolders n pid pre = [] := by
  cases n with
  | mk t i nm u cs e =>
    rw [iterFolders]
    exact if_neg h

/-- Unfolding: a folder node yields its own record followed by its
children's records. -/
theorem iterFolders_folder {n : RNode} (h : n.type = some "folder")
    (pid : Option String) (pre : List String) :
    iterFolders n pid pre =
      ⟨n, pid, pre ++ [n.name]⟩ ::
        iterFoldersChildren n.children n.id (pre ++ [n.name]) := by
  cases n with
  | mk t i nm u cs e =>
    rw [iterFolders]
    rw [if_pos h]

/-- The children loop is concatenation of the children's walks, in order. -/
theorem iterFoldersChildren_eq_flatMap (cs : List RNode) (pid : String)
    (pre : List String) :
    iterFoldersChildren cs pid pre
      = cs.flatMap (fun c => iterFolders c (some pid) pre) := by
  induction cs with
  | nil => rw [iterFoldersChildren]; simp
  | cons c rest ih => rw [iterFoldersChildren]; simp [ih]

/-- The record list of the walk only depends on the starting path by
prepending it to every record's path. -/
theorem iterFolders_path_shift :
    ∀ (n : RNode) (pid : Option String) (pre b : List String),
      iterFolders n pid (pre ++ b) = (iterFolders n pid b).map (prependPath pre) := by
  have hlist : ∀ cs : List RNode,
      (∀ c ∈ cs, ∀ (pid : Option String) (pre b : List String),
        iterFolders c pid (pre ++ b) = (iterFolders c pid b).map (prependPath pre)) →
      ∀ (i : String) (pre b : List String),
        iterFoldersChildren cs i (pre ++ b)
          = (iterFoldersChildren cs i b).map (prependPath pre) := by
    intro cs hmem i pre b
    induction cs with
    | nil => rw [iterFoldersChildren, iterFoldersChildren]; rfl
    | cons c rest ih =>
        rw [iterFoldersChildren, iterFoldersChildren]
        rw [List.map_append]
        rw [hmem c (by simp) (some i) pre b]
        rw [ih (fun x hx => hmem x (by simp [hx]))]
  intro n
  induction n using RNode.strongInd with
  | ih n ihn =>
    intro pid pre b
    by_cases h : n.type = some "folder"
    · rw [iterFolders_folder h, iterFolders_folder h]
      rw [List.map_cons]
      rw [List.append_assoc pre b [n.name]]
      rw [hlist n.children ihn n.id pre (b ++ [n.name])]
      rfl
    · rw [iterFolders_not_folder h, iterFolders_not_folder h]
      rfl

/-- A record inside the children loop comes from one of the children. -/
theorem mem_iterFoldersChildren {r : TRec} {cs : List RNode} {i : String}
    {pre : List String} (h : r ∈ iterFoldersChildren cs i pre) :
    ∃ c ∈ cs, r ∈ iterFolders c (some i) pre := by
  induction cs with
  | nil => rw [iterFoldersChildren] at h; simp at h
  | cons c rest ih =>
      rw [iterFoldersChildren] at h
      rcases List.mem_append.mp h with hc | hr
      · exact ⟨c, by simp, hc⟩
      · rcases ih hr with ⟨d, hd, hrd⟩
        exact ⟨d, by simp [hd], hrd⟩

/-- Every record of a walk started at path `pre` has a path that strictly
extends `pre` and ends with the record's own folder name. -/
theorem iterFolders_mem_path :
    ∀ (n : RNode) (pid : Option String) (pre : List String) (r : TRec),
      r ∈ iterFolders n pid pre →
      ∃ suf, suf ≠ [] ∧ r.path = pre ++ suf ∧ r.path.getLast? = some r.folder.name := by
  intro n
  induction n using RNode.strongInd with
  | ih n ihn =>
    intro pid pre r hr
    by_cases h : n.type = some "folder"
    · rw [iterFolders_folder h] at hr
      rcases List.mem_cons.mp hr with hhead | htail
      · subst hhead
        exact ⟨[n.name], by simp, by simp, by simp [List.getLast?_concat]⟩
      · rcases mem_iterFoldersChildren htail with ⟨c, hc, hrc⟩
        rcases ihn c hc (some n.id) (pre ++ [n.name]) r hrc with ⟨suf, hne, hpath, hlast⟩
        exact ⟨[n.name] ++ suf, by simp, by simp [hpath], hlast⟩
    · rw [iterFolders_not_folder h] at hr
      simp at hr

/-- The per-root contribution of the root-collection loop. -/
def rootContribution (kv : String × RVal) : List TRec :=
  match kv.2 with
  | RVal.dict n => iterFolders n none [kv.1]
  | RVal.nondict => []

/-- The root-collection loop is concatenation of the per-root walks, in
mapping order. -/
theorem collectRootFolders_eq_flatMap (roots : List (String × RVal)) :
    collectRootFolders roots = roots.flatMap rootContribution := by
  have aux : ∀ (rs : List (String × RVal)) (acc : List TRec),
      rs.foldl
        (fun acc kv =>
          match kv.2 with
          | RVal.dict n => acc ++ iterFolders n none [kv.1]
          | RVal.nondict => acc) acc
        = acc ++ rs.flatMap rootContribution := by
    intro rs
    induction rs with
    | nil => intro acc; simp
    | cons kv rest ih =>
        intro acc
        rcases kv with ⟨k, v⟩
        cases v with
        | dict n => simp [List.foldl_cons, ih, rootContribution]
        | nondict => simp [List.foldl_cons, ih, rootContribution]
  rw [collectRootFolders]
  rw [aux]
  simp

/-- Unfolding of `eraseExtras` through the projections. -/
theorem eraseExtras_def (n : RNode) :
    eraseExtras n = ⟨n.type, n.id, n.name, n.url, eraseExtrasList n.children, []⟩ := by
  cases n with
  | mk t i nm u cs e => rw [eraseExtras]

/-- `eraseExtrasList` is `eraseExtras` mapped over the list. -/
theorem eraseExtrasList_eq_map (cs : List RNode) :
    eraseExtrasList cs = cs.map eraseExtras := by
  induction cs with
  | nil => rw [eraseExtrasList]; rfl
  | cons c rest ih => rw [eraseExtrasList]; simp [ih]

/-- Stripping unmodelled dictionary entries commutes with the folder walk:
the walk of the stripped tree is the walk of the original tree with the
stripping mapped over the recorded folder nodes. In particular the unknown
entries never change which records exist, their order, parent ids or
paths. -/
theorem iterFolders_eraseExtras :
    ∀ (n : RNode) (pid : Option String) (pre : List String),
      iterFolders (eraseExtras n) pid pre
        = (iterFolders n pid pre).map eraseExtrasRec := by
  have hlist : ∀ cs : List RNode,
      (∀ c ∈ cs, ∀ (pid : Option String) (pre : List String),
        iterFolders (eraseExtras c) pid pre
          = (iterFolders c pid pre).map eraseExtrasRec) →
      ∀ (i : String) (pre : List String),
        iterFoldersChildren (eraseExtrasList cs) i pre
          = (iterFoldersChildren cs i pre).map eraseExtrasRec := by
    intro cs hmem i pre
    induction cs with
    | nil => rw [eraseExtrasList]; rw [iterFoldersChildren]; rfl
    | cons c rest ih =>
        rw [eraseExtrasList]
        rw [iterFoldersChildren, iterFoldersChildren]
        rw [List.map_append]
        rw [hmem c (by simp) (some i) pre]
        rw [ih (fun x hx => hmem x (by simp [hx]))]
  intro n
  induction n using RNode.strongInd with
  | ih n ihn =>
    intro pid pre
    by_cases h : n.type = some "folder"
    · have he : (eraseExtras n).type = some "folder" := by rw [eraseExtras_def]; exact h
      rw [iterFolders_folder he, iterFolders_folder h]
      rw [List.map_cons]
      have h1 : (eraseExtras n).name = n.name := by rw [eraseExtras_def]
      have h2 : (eraseExtras n).id = n.id := by rw [eraseExtras_def]
      have h3 : (eraseExtras n).children = eraseExtrasList n.children := by rw [eraseExtras_def]
      rw [h1, h2, h3]
      rw [hlist n.children ihn n.id (pre ++ [n.name])]
      rfl
    · have he : ¬ (eraseExtras n).type = some "folder" := by rw [eraseExtras_def]; exact h
      rw [iterFolders_not_folder he, iterFolders_not_folder h]
      rfl

/-- The with-bookmarks inner loop, when every child carries a `type` key,
prints exactly the `type == "url"` children, each rendered by
`urlChildLine`, in source order. -/
theorem bookmarkLines_ok {folder : RNode}
    (hWF : ∀ c ∈ folder.children, c.type ≠ none)
    (fmt : Fmt) (pathParts : List String) :
    bookmarkLines fmt folder pathParts
      = Except.ok ((folder.children.filter (fun c => c.type = some "url")).map
          (urlChildLine fmt folder pathParts)) := by
  have aux : ∀ (cs : List RNode), (∀ c ∈ cs, c.type ≠ none) →
      bookmarkLinesAux fmt folder pathParts cs
      = Except.ok ((cs.filter (fun c => c.type = some "url")).map
          (urlChildLine fmt folder pathParts)) := by
    intro cs
    induction cs with
    | nil => intro _; rw [bookmarkLinesAux]; simp
    | cons c rest ih =>
        intro hcs
        rcases ht : c.type with _ | t
        · exact absurd ht (hcs c (by simp))
        · rw [bookmarkLinesAux]
          rw [ih (fun x hx => hcs x (by simp [hx]))]
          simp only [ht]
          by_cases hu : t = "url"
          · subst hu
            simp [List.filter_cons, ht]
          · simp [List.filter_cons, ht, hu]
  rw [bookmarkLines]
  exact aux (iterChildren folder) hWF

/-- The name-fragment tier of `_match_selector` taken on its own: the
case-insensitive substring search of `selector.lower()` against each
folder's own `name.lower()` (the source lines that run when the exact-id
pass found nothing). -/
def nameFragmentResolve (folders : List TRec) (selector : String) :
    Except SelErr RNode :=
  let selLow := strLower selector
  let ms := (folders.map (fun t => t.folder)).filter
    (fun f => strContains (strLower f.name) selLow)
  match ms with
  | [] => Except.error (SelErr.noMatch
      ("No bookmark folder matches selector \x27" ++ selector ++ "\x27"))
  | [f] => Except.ok f
  | _ :: _ :: _ =>
      Except.error (SelErr.ambiguous
        ("ERROR: ambiguous bookmark folder selector, expected one folder to match while all these folders match: "
          ++ String.intercalate ", "
            ((folders.filter (fun t => decide (t.folder ∈ ms))).map
              (fun t => String.intercalate "/" t.path ++ " (id:" ++ t.folder.id ++ ")"))))

/-- The children loop also only depends on the starting path by prepending. -/
theorem iterFoldersChildren_path_shift (cs : List RNode) (i : String)
    (pre b : List String) :
    iterFoldersChildren cs i (pre ++ b)
      = (iterFoldersChildren cs i b).map (prependPath pre) := by
  induction cs with
  | nil => rw [iterFoldersChildren]; rw [iterFoldersChildren]; rfl
  | cons c rest ih =>
      rw [iterFoldersChildren]
      rw [iterFoldersChildren]
      rw [List.map_append, ih, iterFolders_path_shift]

/-- The empty string is a substring of every string (Python `"" in s`). -/
theorem strContains_empty (s : String) : strContains s "" = true := by
  rw [strContains]
  rw [listInfix.eq_def]
  have h : listStartsWith "".toList s.toList = true := by
    rw [listStartsWith.eq_def]
    cases s.toList <;> simp
  rw [h]
  simp

/-- Concrete nodes and documents used as witnesses below: first, the worked
example of the spec. The child folder `{id:"2", type:"folder", name:"Work",
children:[]}`. -/
def exWork : RNode := ⟨some "folder", "2", "Work", "", [], []⟩

/-- The worked example's root exactly as the spec writes it: keys `id`,
`name`, `children` and no `type` entry. -/
def exRootNoType : RNode := ⟨none, "1", "bookmark_bar", "", [exWork], []⟩

/-- The worked example's root with `type: "folder"` added — the shape real
Chromium root folders have. -/
def exRootTyped : RNode := ⟨some "folder", "1", "bookmark_bar", "", [exWork], []⟩

/-- The worked example document, root object exactly as the spec writes it. -/
def exDocNoType : List (String × RVal) := [("bookmark_bar", RVal.dict exRootNoType)]

/-- The worked example document with the root carrying `type: "folder"`. -/
def exDocTyped : List (String × RVal) := [("bookmark_bar", RVal.dict exRootTyped)]

/-- Two sibling folders named "Work" and "Work Archive" (spec §8). -/
def exWorkA : RNode := ⟨some "folder", "10", "Work", "", [], []⟩

/-- See `exWorkA`. -/
def exWorkB : RNode := ⟨some "folder", "11", "Work Archive", "", [], []⟩

/-- The record list for the Work / Work Archive pair, in traversal order. -/
def exFoldersWork : List TRec :=
  [⟨exWorkA, none, ["bookmark_bar", "Work"]⟩,
   ⟨exWorkB, none, ["bookmark_bar", "Work Archive"]⟩]

/-- A folder whose id "2" is also a substring of another folder's name. -/
def exAlpha : RNode := ⟨some "folder", "2", "Alpha", "", [], []⟩

/-- A folder whose name "Year 2024" contains the digit 2. -/
def exYear : RNode := ⟨some "folder", "7", "Year 2024", "", [], []⟩

/-- Record list where token "2" matches `exAlpha` by id and `exYear` by
name fragment. -/
def exFoldersId : List TRec :=
  [⟨exAlpha, none, ["r", "Alpha"]⟩, ⟨exYear, none, ["r", "Year 2024"]⟩]

/-- A folder whose name contains a comma. -/
def exComma : RNode := ⟨some "folder", "7", "a,b", "", [], []⟩

/-- A bookmark (`type: url`) node. -/
def exUrl : RNode := ⟨some "url", "9", "B", "http://x", [], []⟩

/-- A folder with one bookmark child and one folder child. -/
def exFolderWB : RNode := ⟨some "folder", "1", "F", "", [exUrl, exWork], []⟩

/-- A node lacking the `type` key. -/
def exNoTypeChild : RNode := ⟨none, "9", "NoType", "", [], []⟩

/-- A folder root whose only child lacks the `type` key. -/
def exRootWithNoTypeChild : RNode :=
  ⟨some "folder", "1", "bookmark_bar", "", [exNoTypeChild], []⟩

/-- Document whose tree contains a node lacking `type`. -/
def exDocNoTypeChild : List (String × RVal) :=
  [("bookmark_bar", RVal.dict exRootWithNoTypeChild)]

/-- The record of `exWork` inside the typed worked example. -/
def exWorkRec : TRec := ⟨exWork, some "1", ["bookmark_bar", "bookmark_bar", "Work"]⟩

/-- C1 counterexample: on the document whose roots are
`{"bookmark_bar": {id:"1", name:"bookmark_bar", children:[{id:"2",
type:"folder", name:"Work", children:[]}]}}`, written exactly as the claim
gives it (the root object carries no `type` entry), folder enumeration
yields no records at all — not the two claimed records, and in particular no
record with path `["bookmark_bar"]`. The walk only emits records for nodes
whose `type` is `"folder"`, and it prepends the root key to a path that
also contains the root folder's own name. -/
theorem C1_counterexample :
    collectRootFolders exDocNoType = [] ∧
    ¬ collectRootFolders exDocNoType =
        [⟨exRootNoType, none, ["bookmark_bar"]⟩,
         ⟨exWork, some "1", ["bookmark_bar", "Work"]⟩] := by
  constructor
  · decide
  · decide

/-- C1 amended: every traversal record's path is the starting path segments
(for a whole-document walk, the synthetic root key) followed by a non-empty
run of folder names ending in the record's own folder name; a root object
is walked only when its own `type` is `"folder"`, and then the root key and
the root folder's own name are both path segments. On the worked example
with `type: "folder"` added to the root, enumeration yields exactly two
records: path `["bookmark_bar", "bookmark_bar"]`, id "1", parent `none`,
then `["bookmark_bar", "bookmark_bar", "Work"]`, id "2", parent "1". -/
theorem C1_amended :
    (∀ (n : RNode) (pid : Option String) (pre : List String) (r : TRec),
        r ∈ iterFolders n pid pre →
        ∃ suf, suf ≠ [] ∧ r.path = pre ++ suf ∧
          r.path.getLast? = some r.folder.name) ∧
    collectRootFolders exDocTyped =
      [⟨exRootTyped, none, ["bookmark_bar", "bookmark_bar"]⟩,
       ⟨exWork, some "1", ["bookmark_bar", "bookmark_bar", "Work"]⟩] :=
  ⟨iterFolders_mem_path, by decide⟩

/-- Witness for C1 amended: the second record of the typed worked example,
checked against the path-shape statement at the concrete input. -/
theorem C1_amended_witness :
    exWorkRec ∈ iterFolders exRootTyped none ["bookmark_bar"] ∧
    ∃ suf, suf ≠ [] ∧ exWorkRec.path = ["bookmark_bar"] ++ suf ∧
      exWorkRec.path.getLast? = some exWorkRec.folder.name :=
  ⟨by decide,
   C1_amended.1 exRootTyped none ["bookmark_bar"] exWorkRec (by decide)⟩

/-- C4: folder enumeration is the deterministic pre-order depth-first walk
in source order: a folder node's record is emitted before its children's
records, the children are walked in list order (their record lists are
concatenated left to right), non-folder nodes yield nothing, and the
whole-document enumeration is the concatenation of the per-root walks in
mapping order; the enumeration is a pure function of the document, so two
runs on an unchanged document produce identical, order-stable output. -/
theorem C4_preorder_deterministic :
    (∀ (n : RNode) (pid : Option String) (pre : List String),
        iterFolders n pid pre =
          if n.type = some "folder" then
            ⟨n, pid, pre ++ [n.name]⟩ ::
              n.children.flatMap (fun c => iterFolders c (some n.id) (pre ++ [n.name]))
          else []) ∧
    (∀ roots : List (String × RVal),
        collectRootFolders roots = roots.flatMap rootContribution) ∧
    (∀ roots : List (String × RVal),
        collectRootFolders roots = collectRootFolders roots) := by
  refine ⟨?_, collectRootFolders_eq_flatMap, fun _ => rfl⟩
  intro n pid pre
  by_cases h : n.type = some "folder"
  · rw [iterFolders_folder h, iterFoldersChildren_eq_flatMap, if_pos h]
  · rw [iterFolders_not_folder h, if_neg h]

/-- C6: subtree-scoped enumeration (`_iter_folders(sel_folder, None, [])`,
the `cmd_list_dirs` subtree branch) is the very same walk re-parameterized:
its first record is the selected folder itself with path `[F.name]` (length
one) and parent id `none`, and the walk of the same folder as it occurs
inside any larger enumeration — parent id `pid`, path prefix `pre` — has
exactly the same records, with `pid` substituted into the first record and
`pre` prepended to every record's path. -/
theorem C6_subtree_reparameterization :
    ∀ (F : RNode) (pid : Option String) (pre : List String),
      F.type = some "folder" →
      ∃ rest,
        iterFolders F none [] = ⟨F, none, [F.name]⟩ :: rest ∧
        iterFolders F pid pre =
          ⟨F, pid, pre ++ [F.name]⟩ :: rest.map (prependPath pre) := by
  intro F pid pre h
  refine ⟨iterFoldersChildren F.children F.id [F.name], ?_, ?_⟩
  · rw [iterFolders_folder h]
    simp
  · rw [iterFolders_folder h]
    rw [← iterFoldersChildren_path_shift]

/-- Witness for C6 at the typed worked example, with parent id "0" and path
prefix `["x"]`. -/
theorem C6_witness :
    exRootTyped.type = some "folder" ∧
    ∃ rest,
      iterFolders exRootTyped none [] = ⟨exRootTyped, none, [exRootTyped.name]⟩ :: rest ∧
      iterFolders exRootTyped (some "0") ["x"] =
        ⟨exRootTyped, some "0", ["x"] ++ [exRootTyped.name]⟩ :: rest.map (prependPath ["x"]) :=
  ⟨by decide, C6_subtree_reparameterization exRootTyped (some "0") ["x"] (by decide)⟩

/-- C10: a root entry whose value is not a JSON object is skipped silently
(contributes nothing and raises nothing); a node whose `type` is not
`"folder"` — a `url` node, or a node with no `type` at all — yields no
traversal record and no error; consequently a document whose roots contain
no folder-typed object enumerates to the empty folder list instead of
failing. -/
theorem C10_nonfolders_skipped :
    (∀ (k : String) (roots : List (String × RVal)),
        collectRootFolders ((k, RVal.nondict) :: roots) = collectRootFolders roots) ∧
    (∀ (n : RNode) (pid : Option String) (pre : List String),
        ¬ n.type = some "folder" → iterFolders n pid pre = []) ∧
    (∀ roots : List (String × RVal),
        (∀ kv ∈ roots, ∀ n : RNode, kv.2 = RVal.dict n → ¬ n.type = some "folder") →
        collectRootFolders roots = []) := by
  refine ⟨?_, fun n pid pre h => iterFolders_not_folder h pid pre, ?_⟩
  · intro k roots
    rw [collectRootFolders_eq_flatMap, collectRootFolders_eq_flatMap]
    rw [List.flatMap_cons]
    have h1 : rootContribution (k, RVal.nondict) = [] := by
      rw [rootContribution]
    rw [h1]
    rfl
  · intro roots hall
    rw [collectRootFolders_eq_flatMap]
    induction roots with
    | nil => rfl
    | cons kv rest ih =>
        rw [List.flatMap_cons]
        have h1 : rootContribution kv = [] := by
          rcases kv with ⟨k, v⟩
          cases v with
          | dict n =>
              rw [rootContribution]
              exact iterFolders_not_folder (hall (k, RVal.dict n) (by simp) n rfl) none [k]
          | nondict => rw [rootContribution]
        rw [h1]
        rw [List.nil_append]
        exact ih (fun x hx n he => hall x (by simp [hx]) n he)

/-- Witness for C10: a document whose roots are a non-object entry and a
`type: "url"` object enumerates to the empty list without error. -/
theorem C10_witness :
    collectRootFolders [("bad", RVal.nondict), ("other", RVal.dict exUrl)]
        = collectRootFolders [("other", RVal.dict exUrl)] ∧
    ¬ exUrl.type = some "folder" ∧
    iterFolders exUrl none ["other"] = [] ∧
    collectRootFolders [("bad", RVal.nondict), ("other", RVal.dict exUrl)] = [] := by
  refine ⟨C10_nonfolders_skipped.1 "bad" [("other", RVal.dict exUrl)], by decide,
    C10_nonfolders_skipped.2.1 exUrl none ["other"] (by decide),
    C10_nonfolders_skipped.2.2 [("bad", RVal.nondict), ("other", RVal.dict exUrl)] ?_⟩
  intro kv hkv n he
  simp at hkv
  rcases hkv with h | h
  · rw [h] at he
    simp at he
  · rw [h] at he
    simp at he
    rw [← he]
    decide

/-- C5 counterexample: a document containing a node that lacks the `type`
key is not rejected: `cmd_list_dirs` loads it and enumerates successfully,
silently skipping that node; no `MalformedDocument` failure exists in the
code for this input. -/
theorem C5_counterexample :
    listDirsRoots ⟨some exDocNoTypeChild⟩ =
      Except.ok [⟨exRootWithNoTypeChild, none, ["bookmark_bar", "bookmark_bar"]⟩] := by
  decide

/-- C5 amended: the code performs no validating construction of a tree
model. A document without the top-level `roots` key fails with an untyped
`KeyError`, not a `MalformedDocument` error; a node lacking `type` is
silently skipped by the walk rather than rejected; and unknown extra fields
on a node never cause a failure nor change which records are produced,
their order, parent ids or paths. -/
theorem C5_amended :
    listDirsRoots ⟨none⟩ = Except.error "KeyError: \x27roots\x27" ∧
    (∀ (n : RNode) (pid : Option String) (pre : List String),
        n.type ≠ some "folder" → iterFolders n pid pre = []) ∧
    (∀ (n : RNode) (pid : Option String) (pre : List String),
        iterFolders (eraseExtras n) pid pre = (iterFolders n pid pre).map eraseExtrasRec) :=
  ⟨rfl, fun _ pid pre h => iterFolders_not_folder h pid pre, iterFolders_eraseExtras⟩

/-- Witness for C5 amended: the typeless node is skipped, and a root
carrying an unknown extra entry produces the same records as without it. -/
theorem C5_amended_witness :
    exNoTypeChild.type ≠ some "folder" ∧
    iterFolders exNoTypeChild none [] = [] ∧
    iterFolders (eraseExtras ⟨some "folder", "1", "R", "", [], [("guid", "x")]⟩) none []
      = (iterFolders ⟨some "folder", "1", "R", "", [], [("guid", "x")]⟩ none []).map eraseExtrasRec :=
  ⟨by decide, C5_amended.2.1 exNoTypeChild none [] (by decide),
   C5_amended.2.2 ⟨some "folder", "1", "R", "", [], [("guid", "x")]⟩ none []⟩

/-- When no record's folder id equals the token, `_match_selector` proceeds
to (and returns the result of) the name-fragment search. -/
theorem matchSelector_eq_nameFragment {folders : List TRec} {sel : String}
    (hni : ∀ r ∈ folders, r.folder.id ≠ sel) :
    matchSelector folders sel = nameFragmentResolve folders sel := by
  have hby : (folders.map (fun t => t.folder)).filter (fun f => f.id = sel) = [] := by
    rw [List.filter_eq_nil_iff]
    intro f hf
    rcases List.mem_map.mp hf with ⟨t, ht, rfl⟩
    simpa using hni t ht
  unfold matchSelector nameFragmentResolve
  rw [hby]

/-- When two or more folder names contain the lowered token, the
name-fragment search fails with the ambiguity message enumerating exactly
the name-matching records of the full list, in list order. -/
theorem nameFragmentResolve_ambiguous {folders : List TRec} {sel : String}
    (hlen : 2 ≤ ((folders.map (fun t => t.folder)).filter
        (fun f => strContains (strLower f.name) (strLower sel))).length) :
    nameFragmentResolve folders sel = Except.error (SelErr.ambiguous
      ("ERROR: ambiguous bookmark folder selector, expected one folder to match while all these folders match: "
        ++ String.intercalate ", "
          ((folders.filter (fun r => strContains (strLower r.folder.name) (strLower sel))).map
            (fun r => String.intercalate "/" r.path ++ " (id:" ++ r.folder.id ++ ")")))) := by
  rcases hfe : (folders.map (fun t => t.folder)).filter
      (fun f => strContains (strLower f.name) (strLower sel)) with _ | ⟨a, _ | ⟨b, l⟩⟩
  · rw [hfe] at hlen; simp at hlen
  · rw [hfe] at hlen; simp at hlen
  · have hfilters : folders.filter (fun r => decide (r.folder ∈ a :: b :: l))
        = folders.filter (fun r => strContains (strLower r.folder.name) (strLower sel)) := by
      apply List.filter_congr
      intro t ht
      by_cases hp : strContains (strLower t.folder.name) (strLower sel) = true
      · have hmem : t.folder ∈ a :: b :: l := by
          rw [← hfe]
          exact List.mem_filter.mpr ⟨List.mem_map_of_mem _ ht, hp⟩
        simp [hmem, hp]
      · have hmem : ¬ t.folder ∈ a :: b :: l := by
          rw [← hfe]
          intro hmem
          exact hp (List.mem_filter.mp hmem).2
        simp [hmem, hp]
    unfold nameFragmentResolve
    simp only [hfe]
    rw [hfilters]

/-- C3: an exact id match short-circuits the name search: when the id pass
finds exactly the one folder `g`, resolution returns `g` regardless of any
name containing the token as a substring; and when no record's id equals
the token, resolution is exactly the case-insensitive substring search of
the token against each folder's own `name` — the path plays no part in
matching. -/
theorem C3_id_short_circuit :
    (∀ (folders : List TRec) (sel : String) (g : RNode),
        (folders.map (fun t => t.folder)).filter (fun f => f.id = sel) = [g] →
        matchSelector folders sel = Except.ok g) ∧
    (∀ (folders : List TRec) (sel : String),
        (∀ r ∈ folders, r.folder.id ≠ sel) →
        matchSelector folders sel = nameFragmentResolve folders sel) := by
  constructor
  · intro folders sel g hby
    unfold matchSelector
    rw [hby]
  · intro folders sel hni
    exact matchSelector_eq_nameFragment hni

/-- Witness for C3: token "2" is the id of `exAlpha` and also a substring of
the name "Year 2024", yet resolution returns `exAlpha`; token "work" equals
no id and resolution equals the name-fragment search. -/
theorem C3_witness :
    (exFoldersId.map (fun t => t.folder)).filter (fun f => f.id = "2") = [exAlpha] ∧
    strContains (strLower exYear.name) (strLower "2") = true ∧
    matchSelector exFoldersId "2" = Except.ok exAlpha ∧
    (∀ r ∈ exFoldersWork, r.folder.id ≠ "work") ∧
    matchSelector exFoldersWork "work" = nameFragmentResolve exFoldersWork "work" :=
  ⟨by decide, by decide, C3_id_short_circuit.1 exFoldersId "2" exAlpha (by decide),
   by decide, C3_id_short_circuit.2 exFoldersWork "work" (by decide)⟩

/-- C2: when a token equals no folder id and is a case-insensitive substring
of two or more folder names, resolution fails carrying the message
"ERROR: ambiguous bookmark folder selector, expected one folder to match
while all these folders match: " followed by every matching folder rendered
as `joined-path (id:<id>)`, comma-separated, in traversal order (the order
of the record list); records with identical names and paths are all kept by
the filter and all reported. (`log_error` prefixes one more "ERROR: " when
writing the message to standard error.) -/
theorem C2_ambiguous_message :
    ∀ (folders : List TRec) (sel : String),
      (∀ r ∈ folders, r.folder.id ≠ sel) →
      2 ≤ ((folders.map (fun t => t.folder)).filter
            (fun f => strContains (strLower f.name) (strLower sel))).length →
      matchSelector folders sel = Except.error (SelErr.ambiguous
        ("ERROR: ambiguous bookmark folder selector, expected one folder to match while all these folders match: "
          ++ String.intercalate ", "
            ((folders.filter (fun r => strContains (strLower r.folder.name) (strLower sel))).map
              (fun r => String.intercalate "/" r.path ++ " (id:" ++ r.folder.id ++ ")")))) := by
  intro folders sel hni hlen
  rw [matchSelector_eq_nameFragment hni]
  exact nameFragmentResolve_ambiguous hlen

/-- Witness for C2 at the spec's own example: folders "Work" and
"Work Archive", token "work", both listed in traversal order. -/
theorem C2_witness :
    (∀ r ∈ exFoldersWork, r.folder.id ≠ "work") ∧
    2 ≤ ((exFoldersWork.map (fun t => t.folder)).filter
          (fun f => strContains (strLower f.name) (strLower "work"))).length ∧
    matchSelector exFoldersWork "work" = Except.error (SelErr.ambiguous
      "ERROR: ambiguous bookmark folder selector, expected one folder to match while all these folders match: bookmark_bar/Work (id:10), bookmark_bar/Work Archive (id:11)") := by
  refine ⟨by decide, by decide, ?_⟩
  rw [C2_ambiguous_message exFoldersWork "work" (by decide) (by decide)]
  decide

/-- C9: the empty token lowercases to the empty string, which is a
substring of every name, so when it equals no folder id: with two or more
folders resolution always fails with the ambiguous-selector error listing
every folder of the set, and with exactly one folder it resolves to that
folder. -/
theorem C9_empty_selector :
    (∀ folders : List TRec,
        2 ≤ folders.length →
        (∀ r ∈ folders, r.folder.name ≠ "") →
        (∀ r ∈ folders, r.folder.id ≠ "") →
        matchSelector folders "" = Except.error (SelErr.ambiguous
          ("ERROR: ambiguous bookmark folder selector, expected one folder to match while all these folders match: "
            ++ String.intercalate ", "
              (folders.map (fun r => String.intercalate "/" r.path ++ " (id:" ++ r.folder.id ++ ")"))))) ∧
    (∀ t : TRec, t.folder.id ≠ "" → matchSelector [t] "" = Except.ok t.folder) := by
  have h0 : strLower "" = "" := rfl
  constructor
  · intro folders hlen hnames hids
    rw [matchSelector_eq_nameFragment hids]
    have hfe : (folders.map (fun t => t.folder)).filter
        (fun f => strContains (strLower f.name) (strLower ""))
          = folders.map (fun t => t.folder) := by
      apply List.filter_eq_self.mpr
      intro f _
      rw [h0]
      exact strContains_empty (strLower f.name)
    have hlen2 : 2 ≤ ((folders.map (fun t => t.folder)).filter
        (fun f => strContains (strLower f.name) (strLower ""))).length := by
      rw [hfe, List.length_map]
      exact hlen
    rw [nameFragmentResolve_ambiguous hlen2]
    have hfolders : folders.filter
        (fun r => strContains (strLower r.folder.name) (strLower "")) = folders := by
      apply List.filter_eq_self.mpr
      intro r _
      rw [h0]
      exact strContains_empty (strLower r.folder.name)
    rw [hfolders]
  · intro t hid
    have hni : ∀ r ∈ [t], r.folder.id ≠ "" := by
      intro r hr
      rw [List.mem_singleton] at hr
      rw [hr]
      exact hid
    rw [matchSelector_eq_nameFragment hni]
    unfold nameFragmentResolve
    simp [h0, strContains_empty]

/-- Witness for C9: the Work / Work Archive pair with the empty token lists
both folders; a singleton folder set resolves to its folder. -/
theorem C9_witness :
    2 ≤ exFoldersWork.length ∧
    (∀ r ∈ exFoldersWork, r.folder.name ≠ "") ∧
    (∀ r ∈ exFoldersWork, r.folder.id ≠ "") ∧
    matchSelector exFoldersWork "" = Except.error (SelErr.ambiguous
      "ERROR: ambiguous bookmark folder selector, expected one folder to match while all these folders match: bookmark_bar/Work (id:10), bookmark_bar/Work Archive (id:11)") ∧
    matchSelector [⟨exWorkA, none, ["bookmark_bar", "Work"]⟩] "" = Except.ok exWorkA := by
  refine ⟨by decide, by decide, by decide, ?_, ?_⟩
  · rw [C9_empty_selector.1 exFoldersWork (by decide) (by decide) (by decide)]
    decide
  · exact C9_empty_selector.2 ⟨exWorkA, none, ["bookmark_bar", "Work"]⟩ (by decide)

/-- Dropping up to the first double quote skips a quote-free block. -/
theorem dropWhile_not_quote {pre rest : List Char} (h : ∀ c ∈ pre, c ≠ '"') :
    (pre ++ '"' :: rest).dropWhile (fun c => !(c == '"')) = '"' :: rest := by
  induction pre with
  | nil =>
      rw [List.nil_append, List.dropWhile_cons]
      simp
  | cons a as ih =>
      rw [List.cons_append, List.dropWhile_cons]
      have ha : a ≠ '"' := h a (by simp)
      rw [if_pos (by simp [ha])]
      exact ih (fun c hc => h c (by simp [hc]))

/-- Round trip of the simple quoted-field parse: on any line that is a
quote-free block followed by the doubly-quoted name at the end, the parse
recovers the name exactly. -/
theorem quotedFieldOfLine_round {pre : List Char} {nm : String} {line : String}
    (h : ∀ c ∈ pre, c ≠ '"')
    (hline : line.toList = pre ++ '"' :: (nm.toList ++ ['"'])) :
    quotedFieldOfLine line = some nm := by
  unfold quotedFieldOfLine
  rw [hline]
  rw [dropWhile_not_quote h]
  have hbody : List.dropWhile (fun c => !(c == '"')) ((nm.toList ++ ['"']).reverse)
      = '"' :: nm.toList.reverse := by
    have hrev : (nm.toList ++ ['"']).reverse = '"' :: nm.toList.reverse := by
      rw [List.reverse_append]
      rfl
    rw [hrev, List.dropWhile_cons]
    simp
  simp only [hbody, List.reverse_reverse]
  rfl

/-- C7: the csv renderer always emits the name as the final field, wrapped
in double quotes, after a quote-free prefix built from the id, the parent
id and the separating commas (ids are browser-assigned digit strings, hence
quote-free); consequently any name — in particular one containing commas —
is recovered exactly from the line by the simple quoted-field parse that
reads the text between the line's first and last double quote. The embedded
commas of the name sit inside the quotes, never bare in the prefix. -/
theorem C7_csv_round_trip :
    ∀ (folder : RNode) (parentId : Option String),
      (∀ c ∈ folder.id.toList, c ≠ '"') →
      (∀ c ∈ (parentId.getD "").toList, c ≠ '"') →
      ((csvFolderLine folder parentId).toList
          = (folder.id.toList ++ ',' :: ((parentId.getD "").toList ++ [',']))
              ++ '"' :: (folder.name.toList ++ ['"']) ∧
        (∀ c ∈ folder.id.toList ++ ',' :: ((parentId.getD "").toList ++ [',']), c ≠ '"')) ∧
      quotedFieldOfLine (csvFolderLine folder parentId) = some folder.name := by
  intro folder parentId hid hpid
  have hpre : ∀ c ∈ folder.id.toList ++ ',' :: ((parentId.getD "").toList ++ [',']),
      c ≠ '"' := by
    intro c hc
    rcases List.mem_append.mp hc with h1 | h1
    · exact hid c h1
    · rcases List.mem_cons.mp h1 with h2 | h2
      · rw [h2]; decide
      · rcases List.mem_append.mp h2 with h3 | h3
        · exact hpid c h3
        · rcases List.mem_singleton.mp h3 with rfl; decide
  have hline : (csvFolderLine folder parentId).toList
      = (folder.id.toList ++ ',' :: ((parentId.getD "").toList ++ [',']))
          ++ '"' :: (folder.name.toList ++ ['"']) := by
    show (csvFolderLine folder parentId).data = _
    unfold csvFolderLine
    rw [String.data_append, String.data_append, String.data_append,
      String.data_append, String.data_append]
    show folder.id.data ++ [','] ++ (parentId.getD "").data ++ [',', '"']
        ++ folder.name.data ++ ['"'] = _
    simp [List.append_assoc]
  exact ⟨⟨hline, hpre⟩, quotedFieldOfLine_round hpre hline⟩

/-- Witness for C7: the folder named `a,b` with id 7 and parent 3; the csv
line is `7,3,"a,b"` and the quoted-field parse recovers `a,b`. -/
theorem C7_witness :
    (∀ c ∈ exComma.id.toList, c ≠ '"') ∧
    (∀ c ∈ ((some "3" : Option String).getD "").toList, c ≠ '"') ∧
    csvFolderLine exComma (some "3") = "7,3,\"a,b\"" ∧
    quotedFieldOfLine (csvFolderLine exComma (some "3")) = some exComma.name :=
  ⟨by decide, by decide, by decide,
   (C7_csv_round_trip exComma (some "3") (by decide) (by decide)).2⟩

/-- C8: with `--with-bookmarks`, for every record list and every format
(path, csv, jsonl), the printed stream is each folder's own line followed
immediately by the lines of its direct `type: "url"` children in source
order, before any later folder's line; without the flag the stream is the
folder lines alone — the interleaving only inserts each folder's bookmark
lines right after that folder's line, for every renderer alike. -/
theorem C8_with_bookmarks_interleaving :
    ∀ (folders : List TRec) (fmt : Fmt) (showIds : Bool),
      (∀ r ∈ folders, ∀ c ∈ r.folder.children, c.type ≠ none) →
      listDirsOut fmt showIds true folders
        = Except.ok (folders.flatMap (fun r =>
            printFolderLine r.folder r.parentId r.path fmt showIds ::
              (r.folder.children.filter (fun c => c.type = some "url")).map
                (urlChildLine fmt r.folder r.path))) ∧
      listDirsOut fmt showIds false folders
        = Except.ok (folders.map (fun r =>
            printFolderLine r.folder r.parentId r.path fmt showIds)) := by
  intro folders fmt showIds hWF
  constructor
  · induction folders with
    | nil => rw [listDirsOut]; rfl
    | cons r rest ih =>
        rw [listDirsOut]
        rw [bookmarkLines_ok (hWF r (by simp)) fmt r.path]
        rw [ih (fun x hx c hc => hWF x (by simp [hx]) c hc)]
        rw [List.flatMap_cons]
        simp
  · induction folders with
    | nil => rw [listDirsOut]; rfl
    | cons r rest ih =>
        rw [listDirsOut]
        rw [ih (fun x hx c hc => hWF x (by simp [hx]) c hc)]
        simp

/-- Witness for C8: a folder with one bookmark child and one folder child,
in path format: with bookmarks the bookmark line follows the folder line;
without, only the folder line appears. -/
theorem C8_witness :
    (∀ r ∈ [(⟨exFolderWB, none, ["bb", "F"]⟩ : TRec)],
        ∀ c ∈ r.folder.children, c.type ≠ none) ∧
    listDirsOut Fmt.path false true [⟨exFolderWB, none, ["bb", "F"]⟩]
      = Except.ok ["/bb/F", "/bb/F/B"] ∧
    listDirsOut Fmt.path false false [⟨exFolderWB, none, ["bb", "F"]⟩]
      = Except.ok ["/bb/F"] := by
  refine ⟨by decide, ?_, ?_⟩
  · rw [(C8_with_bookmarks_interleaving [⟨exFolderWB, none, ["bb", "F"]⟩]
      Fmt.path false (by decide)).1]
    decide
  · rw [(C8_with_bookmarks_interleaving [⟨exFolderWB, none, ["bb", "F"]⟩]
      Fmt.path false (by decide)).2]
    decide
